import Mathlib

/-!
Verification of the solar-system simulator's core pipeline (`solar_app.py`):
the kinematic model (`Planet.update_position`, `Moon.update_position`,
`reset_position`), the screen projection and depth ordering of
`draw_planet` / `draw_solar_system`, the per-pixel shading of
`create_texture_map`, the hit-testing of `get_planet_at_position`, the view
mutators (`reset_view`, `zoom_in` / `zoom_out`, `on_mouse_wheel`,
`set_time_scale`) and the animation scheduler (`start_animation`,
`pause_animation`).  Python floats are modelled as real numbers; pixel
channels as naturals.
-/

open scoped Classical

noncomputable section

namespace SolarApp

/-- `math.radians`: degrees to radians. -/
def radians (deg : ℝ) : ℝ := deg * (Real.pi / 180)

/-- A moon (`class Moon`).  The Python object keeps a reference to its parent
planet; here the parent's current position is passed to `update_position`
explicitly.  The descriptive `facts` string is display-only and omitted. -/
@[ext]
structure Moon where
  name : String
  radius : ℝ
  distance : ℝ
  orbital_speed : ℝ
  color : String
  angle : ℝ
  initial_angle : ℝ
  x : ℝ
  y : ℝ

/-- `Moon.update_position`: advance the angle by `orbital_speed * time_scale`
and recompute the position as a 2D polar offset from the parent planet's
current position (`self.planet.x`, `self.planet.y`). -/
def Moon.update_position (parent_x parent_y time_scale : ℝ) (m : Moon) : Moon :=
  let angle := m.angle + m.orbital_speed * time_scale
  { m with
    angle := angle
    x := parent_x + m.distance * Real.cos angle
    y := parent_y + m.distance * Real.sin angle }

/-- `Moon.reset_position`: restore the angle drawn at construction time. -/
def Moon.reset_position (m : Moon) : Moon :=
  { m with angle := m.initial_angle }

/-- A planet (`class Planet`).  The many optional scientific attributes
(mass, density, gravity, …) are display-only strings/numbers never read by
the simulation pipeline and are omitted; the image/texture handles live in
the shading model below. -/
@[ext]
structure Planet where
  name : String
  radius : ℝ
  distance_from_sun : ℝ
  orbital_speed : ℝ
  color : String
  axial_tilt : ℝ
  orbital_inclination : ℝ
  has_rings : Bool
  angle : ℝ
  initial_angle : ℝ
  x : ℝ
  y : ℝ
  z : ℝ
  rotation_angle : ℝ
  moon_objects : List Moon

/-- `Planet.update_position`: `angle += orbital_speed * time_scale`,
`rotation_angle += 0.02 * time_scale`, then
`x = d·cos angle`, `y = d·sin angle·cos(radians incl)`,
`z = d·sin angle·sin(radians incl)`, and finally each moon is advanced
against the planet's freshly updated position. -/
def Planet.update_position (time_scale : ℝ) (p : Planet) : Planet :=
  let angle := p.angle + p.orbital_speed * time_scale
  let rotation_angle := p.rotation_angle + 0.02 * time_scale
  let x := p.distance_from_sun * Real.cos angle
  let y := p.distance_from_sun * Real.sin angle *
    Real.cos (radians p.orbital_inclination)
  let z := p.distance_from_sun * Real.sin angle *
    Real.sin (radians p.orbital_inclination)
  { p with
    angle := angle
    rotation_angle := rotation_angle
    x := x
    y := y
    z := z
    moon_objects := p.moon_objects.map (Moon.update_position x y time_scale) }

/-- `Planet.reset_position`: `angle = initial_angle`, `rotation_angle = 0`,
and recursively reset every moon. -/
def Planet.reset_position (p : Planet) : Planet :=
  { p with
    angle := p.initial_angle
    rotation_angle := 0
    moon_objects := p.moon_objects.map Moon.reset_position }

/-- C1: `advance(body, t)` adds `orbital_speed * t` to the angle, then sets
`x = d·cos angle`, `y = d·sin angle·cos incl`, `z = d·sin angle·sin incl`
(inclination converted from degrees), and recursively advances every moon,
whose resulting position is exactly the parent's new position plus the 2D
polar offset `(dist·cos angle', dist·sin angle')` — a `Moon` carries no z
field of its own. -/
theorem update_position_spec (p : Planet) (t : ℝ) :
    (p.update_position t).angle = p.angle + p.orbital_speed * t ∧
    (p.update_position t).x =
      p.distance_from_sun * Real.cos (p.angle + p.orbital_speed * t) ∧
    (p.update_position t).y =
      p.distance_from_sun * Real.sin (p.angle + p.orbital_speed * t) *
        Real.cos (radians p.orbital_inclination) ∧
    (p.update_position t).z =
      p.distance_from_sun * Real.sin (p.angle + p.orbital_speed * t) *
        Real.sin (radians p.orbital_inclination) ∧
    (p.update_position t).moon_objects = p.moon_objects.map (fun m =>
      { m with
        angle := m.angle + m.orbital_speed * t
        x := (p.update_position t).x +
          m.distance * Real.cos (m.angle + m.orbital_speed * t)
        y := (p.update_position t).y +
          m.distance * Real.sin (m.angle + m.orbital_speed * t) }) := by
  refine ⟨rfl, rfl, rfl, rfl, ?_⟩
  simp only [Planet.update_position]
  congr 1

/-- The application state (`class SolarSystemExplorer.__init__`), restricted
to the fields the simulation/rendering pipeline reads.  Effects that the GUI
performs are modelled by counters: `render_count` counts the calls to
`draw_solar_system`, `thread_alive` models `animation_thread is not None and
animation_thread.is_alive()`, and `spawn_count` counts the background threads
ever spawned. -/
@[ext]
structure Explorer where
  is_running : Bool
  zoom_factor : ℝ
  center_x : ℝ
  center_y : ℝ
  time_scale : ℝ
  current_date : ℝ
  initial_date : ℝ
  show_orbits : Bool
  show_names : Bool
  show_moons : Bool
  show_3d : Bool
  depth_factor : ℝ
  planets : List Planet
  render_count : ℕ
  thread_alive : Bool
  spawn_count : ℕ

/-- The state `__init__` builds: animation stopped, `zoom_factor = 1.0`,
center `(700, 400)`, `time_scale = 1.0`, all visibility toggles on,
`depth_factor = 0.5`, date set to `datetime.now()` (passed in as `now`),
no thread yet. -/
def init_state (now : ℝ) (planets : List Planet) : Explorer :=
  { is_running := false
    zoom_factor := 1.0
    center_x := 700
    center_y := 400
    time_scale := 1.0
    current_date := now
    initial_date := now
    show_orbits := true
    show_names := true
    show_moons := true
    show_3d := true
    depth_factor := 0.5
    planets := planets
    render_count := 0
    thread_alive := false
    spawn_count := 0 }

/-- Projected screen x of a planet (`draw_planet`, and identically
`get_planet_at_position`): `x = center_x + planet.x * zoom_factor`. -/
def screen_x (s : Explorer) (p : Planet) : ℝ :=
  s.center_x + p.x * s.zoom_factor

/-- Projected screen y (`draw_planet`): `y = center_y + planet.y * zoom`,
plus `planet.z * depth_factor * zoom` when the 3D view is on. -/
def screen_y (s : Explorer) (p : Planet) : ℝ :=
  let y := s.center_y + p.y * s.zoom_factor
  if s.show_3d then y + p.z * s.depth_factor * s.zoom_factor else y

/-- Projected screen radius (`draw_planet`):
`radius = planet.radius * zoom_factor`. -/
def screen_radius (s : Explorer) (p : Planet) : ℝ :=
  p.radius * s.zoom_factor

/-- A concrete body sitting at `x = 150`, for the spec's projection
scenario. -/
def scenario_planet : Planet :=
  { name := "Earth"
    radius := 10
    distance_from_sun := 150
    orbital_speed := 0.02
    color := "#4169E1"
    axial_tilt := 23.44
    orbital_inclination := 0
    has_rings := false
    angle := 0
    initial_angle := 0
    x := 150
    y := 0
    z := 0
    rotation_angle := 0
    moon_objects := [] }

/-- C2: the projection is `screen_x = center_x + x·zoom`,
`screen_y = center_y + y·zoom` plus `z·depth_factor·zoom` exactly when the
3D view is on, and the screen radius is `radius·zoom`; in the spec's
scenario (zoom 2.0, center `(700, 400)`, body at `x = 150`) the projected
x is 1000. -/
theorem projection_spec (s : Explorer) (p : Planet) :
    screen_x s p = s.center_x + p.x * s.zoom_factor ∧
    screen_y s p = s.center_y + p.y * s.zoom_factor +
      (if s.show_3d then p.z * s.depth_factor * s.zoom_factor else 0) ∧
    screen_radius s p = p.radius * s.zoom_factor ∧
    screen_x { init_state 0 [] with zoom_factor := 2.0 } scenario_planet
      = 1000 := by
  refine ⟨rfl, ?_, rfl, ?_⟩
  · simp only [screen_y]
    split <;> ring
  · norm_num [screen_x, init_state, scenario_planet]

/-- `reset_view`: `zoom_factor = 1.0`, center back to `(700, 400)`, reset
every planet (recursively its moons), then one call to
`draw_solar_system`.  It touches nothing else: not `is_running`, not
`time_scale`, not the visibility toggles, not the date. -/
def reset_view (s : Explorer) : Explorer :=
  { s with
    zoom_factor := 1.0
    center_x := 700
    center_y := 400
    planets := s.planets.map Planet.reset_position
    render_count := s.render_count + 1 }

/-- `set_time_scale`: the time-scale slider callback. -/
def set_time_scale (value : ℝ) (s : Explorer) : Explorer :=
  { s with time_scale := value }

/-- C7 counterexample: from the reachable state obtained by setting the
time-scale slider to 5, `reset_view` leaves `time_scale` at 5, not at the
initial default 1.0 — so it does not restore the full View State (which the
claim says comprises the time-scale multiplier, the toggles and the date). -/
theorem reset_view_leaves_time_scale :
    (reset_view (set_time_scale 5 (init_state 0 []))).time_scale = 5 ∧
    (init_state 0 []).time_scale = 1 ∧
    (reset_view (set_time_scale 5 (init_state 0 []))).time_scale ≠
      (init_state 0 []).time_scale := by
  refine ⟨rfl, ?_, ?_⟩ <;>
    norm_num [reset_view, set_time_scale, init_state]

/-- C7 (amended): from every state, `reset_view` restores the zoom factor
and the pan center to their initial values (1.0 and `(700, 400)`), resets
every body's angle to its initial snapshot, forces exactly one re-render,
and does not change the Running/Stopped state; the visibility toggles, the
simulated date and the time-scale multiplier are left unchanged, not
restored to defaults. -/
theorem reset_view_spec (s : Explorer) :
    (reset_view s).zoom_factor = 1.0 ∧
    (reset_view s).center_x = 700 ∧
    (reset_view s).center_y = 400 ∧
    (reset_view s).planets = s.planets.map Planet.reset_position ∧
    (reset_view s).planets.map Planet.angle =
      s.planets.map Planet.initial_angle ∧
    (reset_view s).render_count = s.render_count + 1 ∧
    (reset_view s).is_running = s.is_running ∧
    (reset_view s).time_scale = s.time_scale ∧
    (reset_view s).show_orbits = s.show_orbits ∧
    (reset_view s).show_names = s.show_names ∧
    (reset_view s).show_moons = s.show_moons ∧
    (reset_view s).show_3d = s.show_3d ∧
    (reset_view s).current_date = s.current_date := by
  refine ⟨rfl, rfl, rfl, rfl, ?_, rfl, rfl, rfl, rfl, rfl, rfl, rfl, rfl⟩
  simp [reset_view, Planet.reset_position, Function.comp]

/-- `zoom_in`: `zoom_factor *= 1.2`, then redraw. -/
def zoom_in (s : Explorer) : Explorer :=
  { s with
    zoom_factor := s.zoom_factor * 1.2
    render_count := s.render_count + 1 }

/-- `zoom_out`: `zoom_factor /= 1.2`, then redraw. -/
def zoom_out (s : Explorer) : Explorer :=
  { s with
    zoom_factor := s.zoom_factor / 1.2
    render_count := s.render_count + 1 }

/-- `on_mouse_wheel`: `zoom_factor *= 1.1` when `event.delta > 0`, else
`zoom_factor /= 1.1`, then redraw. -/
def on_mouse_wheel (delta : ℝ) (s : Explorer) : Explorer :=
  { s with
    zoom_factor :=
      if delta > 0 then s.zoom_factor * 1.1 else s.zoom_factor / 1.1
    render_count := s.render_count + 1 }

/-- One zoom mutator call: the zoom-in button, the zoom-out button, or a
mouse-wheel event with its delta. -/
inductive ZoomCall where
  | button_in : ZoomCall
  | button_out : ZoomCall
  | wheel : ℝ → ZoomCall

/-- Apply one zoom mutator call to the state. -/
def apply_zoom_call (s : Explorer) : ZoomCall → Explorer
  | ZoomCall.button_in => zoom_in s
  | ZoomCall.button_out => zoom_out s
  | ZoomCall.wheel delta => on_mouse_wheel delta s

/-- Each zoom mutator keeps a positive zoom factor positive. -/
theorem apply_zoom_call_pos {s : Explorer} (h : 0 < s.zoom_factor)
    (c : ZoomCall) : 0 < (apply_zoom_call s c).zoom_factor := by
  cases c with
  | button_in => simpa [apply_zoom_call, zoom_in] using by positivity
  | button_out => simpa [apply_zoom_call, zoom_out] using by positivity
  | wheel delta =>
    simp only [apply_zoom_call, on_mouse_wheel]
    split <;> positivity

/-- C8: starting from the initial zoom factor 1.0, no finite sequence of
zoom mutator calls (buttons or mouse wheel) can drive the zoom factor the
renderer reads to zero or below: each mutator multiplies or divides by a
positive constant, so positivity is preserved at the mutator boundary. -/
theorem zoom_factor_pos (now : ℝ) (planets : List Planet)
    (calls : List ZoomCall) :
    0 < (calls.foldl apply_zoom_call (init_state now planets)).zoom_factor := by
  have general :
      ∀ (calls : List ZoomCall) (s : Explorer), 0 < s.zoom_factor →
        0 < (calls.foldl apply_zoom_call s).zoom_factor := by
    intro calls
    induction calls with
    | nil => intro s hs; simpa using hs
    | cons c rest ih =>
      intro s hs
      exact ih _ (apply_zoom_call_pos hs c)
  exact general calls _ (by norm_num [init_state])

/-- `start_animation`: only when not already running, set `is_running` and,
only when no live thread exists (`animation_thread is None or not
is_alive()`), spawn the background loop. -/
def start_animation (s : Explorer) : Explorer :=
  if s.is_running then s
  else
    let s' := { s with is_running := true }
    if s'.thread_alive then s'
    else { s' with thread_alive := true, spawn_count := s'.spawn_count + 1 }

/-- `pause_animation`: clear `is_running`; the background loop observes the
flag and exits. -/
def pause_animation (s : Explorer) : Explorer :=
  { s with is_running := false }

/-- C9: `start_animation` moves Stopped to Running and is an idempotent
no-op when already Running — a second consecutive `start` changes nothing,
and from the initial stopped state two consecutive starts spawn exactly one
background loop; `pause_animation` moves Running to Stopped and is an
idempotent no-op when already Stopped.  Neither misuse is an error. -/
theorem scheduler_spec (s : Explorer) (now : ℝ) (planets : List Planet) :
    (s.is_running = false → (start_animation s).is_running = true) ∧
    (s.is_running = true → start_animation s = s) ∧
    start_animation (start_animation s) = start_animation s ∧
    (start_animation (start_animation (init_state now planets))).spawn_count
      = 1 ∧
    (pause_animation s).is_running = false ∧
    (s.is_running = false → pause_animation s = s) ∧
    pause_animation (pause_animation s) = pause_animation s := by
  refine ⟨?_, ?_, ?_, ?_, rfl, ?_, rfl⟩
  · intro h
    simp [start_animation, h]
    split <;> rfl
  · intro h
    simp [start_animation, h]
  · by_cases h : s.is_running
    · simp [start_animation, h]
    · simp only [start_animation, h, Bool.false_eq_true, if_false]
      split <;> simp
  · simp [start_animation, init_state]
  · intro h
    cases s
    simp_all [pause_animation]

/-- A finite sequence of `update_position` calls with arbitrary time
scales, applied left to right. -/
def advance_all (ts : List ℝ) (p : Planet) : Planet :=
  ts.foldl (fun q t => q.update_position t) p

/-- `update_position` never touches `initial_angle`, neither the planet's
nor any moon's. -/
theorem update_position_initial_angle (p : Planet) (t : ℝ) :
    (p.update_position t).initial_angle = p.initial_angle ∧
    (p.update_position t).moon_objects.map Moon.initial_angle =
      p.moon_objects.map Moon.initial_angle := by
  refine ⟨rfl, ?_⟩
  simp [Planet.update_position, Moon.update_position, Function.comp]

/-- Neither does any sequence of them. -/
theorem advance_all_initial_angle (ts : List ℝ) (p : Planet) :
    (advance_all ts p).initial_angle = p.initial_angle ∧
    (advance_all ts p).moon_objects.map Moon.initial_angle =
      p.moon_objects.map Moon.initial_angle := by
  induction ts generalizing p with
  | nil => exact ⟨rfl, rfl⟩
  | cons t rest ih =>
    have h := update_position_initial_angle p t
    have h' := ih (p.update_position t)
    exact ⟨h'.1.trans h.1, h'.2.trans h.2⟩

/-- `reset_position` is idempotent on the full planet state. -/
theorem reset_position_idem (p : Planet) :
    p.reset_position.reset_position = p.reset_position := by
  simp only [Planet.reset_position, List.map_map]
  congr 1

/-- C6: after any finite sequence of `update_position` calls,
`reset_position` yields `angle = initial_angle`, `rotation_angle = 0`, and
every moon back at its own initial angle — exactly the same angles as a
reset with no intervening advance — and `reset_position` is idempotent:
applying it twice gives the very same state as applying it once. -/
theorem reset_left_inverse (p : Planet) (ts : List ℝ) :
    (advance_all ts p).reset_position.angle = p.initial_angle ∧
    (advance_all ts p).reset_position.rotation_angle = 0 ∧
    (advance_all ts p).reset_position.moon_objects.map Moon.angle =
      p.moon_objects.map Moon.initial_angle ∧
    (advance_all ts p).reset_position.angle = p.reset_position.angle ∧
    (advance_all ts p).reset_position.rotation_angle =
      p.reset_position.rotation_angle ∧
    (advance_all ts p).reset_position.moon_objects.map Moon.angle =
      p.reset_position.moon_objects.map Moon.angle ∧
    (advance_all ts p).reset_position.reset_position =
      (advance_all ts p).reset_position := by
  obtain ⟨h1, h2⟩ := advance_all_initial_angle ts p
  have hangle : (advance_all ts p).reset_position.angle = p.initial_angle := by
    simpa [Planet.reset_position] using h1
  have hmoons :
      (advance_all ts p).reset_position.moon_objects.map Moon.angle =
        p.moon_objects.map Moon.initial_angle := by
    simpa [Planet.reset_position, List.map_map, Function.comp,
      Moon.reset_position] using h2
  refine ⟨hangle, rfl, hmoons, hangle, rfl, ?_, reset_position_idem _⟩
  rw [hmoons]
  simp [Planet.reset_position, List.map_map, Function.comp,
    Moon.reset_position]

/-- Python's `random.uniform(a, b)`, which returns `a + (b - a) * random()`
where `random()` draws `u` uniformly from `[0, 1)`; the draw `u` is passed
in explicitly. -/
def random_uniform (a b u : ℝ) : ℝ := a + (b - a) * u

/-- `Planet.__init__` restricted to the kinematic fields: the starting
angle is `random.uniform(0, 2*math.pi)` — there is no angle argument in the
constructor at all — `initial_angle` snapshots that draw, position starts
at the origin, rotation at 0, and the moon list empty.  `u` is the
underlying `random()` draw. -/
def Planet.mk_init (name : String) (radius distance_from_sun orbital_speed : ℝ)
    (color : String) (axial_tilt orbital_inclination : ℝ) (has_rings : Bool)
    (u : ℝ) : Planet :=
  let angle := random_uniform 0 (2 * Real.pi) u
  { name := name
    radius := radius
    distance_from_sun := distance_from_sun
    orbital_speed := orbital_speed
    color := color
    axial_tilt := axial_tilt
    orbital_inclination := orbital_inclination
    has_rings := has_rings
    angle := angle
    initial_angle := angle
    x := 0
    y := 0
    z := 0
    rotation_angle := 0
    moon_objects := [] }

/-- `Moon.__init__` restricted to the kinematic fields: the starting angle
is again `random.uniform(0, 2*math.pi)` with `initial_angle` snapshotting
it; `u` is the underlying `random()` draw. -/
def Moon.mk_init (name : String) (radius distance orbital_speed : ℝ)
    (color : String) (u : ℝ) : Moon :=
  let angle := random_uniform 0 (2 * Real.pi) u
  { name := name
    radius := radius
    distance := distance
    orbital_speed := orbital_speed
    color := color
    angle := angle
    initial_angle := angle
    x := 0
    y := 0 }

/-- C10: at construction the starting angle of a planet, and likewise of a
moon, equals `2π·u` for the session's `random()` draw `u ∈ [0, 1)` — hence
lies in `[0, 2π)` and is not read from any catalog field — `initial_angle`
is set equal to that drawn angle, a later reset restores exactly the drawn
angle, and two runs whose draws differ start at different angles even with
an identical catalog. -/
theorem random_start_angle (name : String)
    (radius distance_from_sun orbital_speed : ℝ) (color : String)
    (axial_tilt orbital_inclination : ℝ) (has_rings : Bool) (u : ℝ)
    (h0 : 0 ≤ u) (h1 : u < 1) :
    (Planet.mk_init name radius distance_from_sun orbital_speed color
        axial_tilt orbital_inclination has_rings u).angle = 2 * Real.pi * u ∧
    0 ≤ (Planet.mk_init name radius distance_from_sun orbital_speed color
        axial_tilt orbital_inclination has_rings u).angle ∧
    (Planet.mk_init name radius distance_from_sun orbital_speed color
        axial_tilt orbital_inclination has_rings u).angle < 2 * Real.pi ∧
    (Planet.mk_init name radius distance_from_sun orbital_speed color
        axial_tilt orbital_inclination has_rings u).initial_angle =
      (Planet.mk_init name radius distance_from_sun orbital_speed color
        axial_tilt orbital_inclination has_rings u).angle ∧
    (Moon.mk_init name radius distance_from_sun orbital_speed color u).angle
      = 2 * Real.pi * u ∧
    (Moon.mk_init name radius distance_from_sun orbital_speed color
        u).initial_angle =
      (Moon.mk_init name radius distance_from_sun orbital_speed color
        u).angle ∧
    (∀ t : ℝ, ((Planet.mk_init name radius distance_from_sun orbital_speed
        color axial_tilt orbital_inclination has_rings
        u).update_position t).reset_position.angle = 2 * Real.pi * u) ∧
    (∀ u' : ℝ, u' ≠ u →
      (Planet.mk_init name radius distance_from_sun orbital_speed color
        axial_tilt orbital_inclination has_rings u').angle ≠
      (Planet.mk_init name radius distance_from_sun orbital_speed color
        axial_tilt orbital_inclination has_rings u).angle) := by
  have hval : random_uniform 0 (2 * Real.pi) u = 2 * Real.pi * u := by
    simp [random_uniform]
  have hpi : (0 : ℝ) < 2 * Real.pi := by positivity
  refine ⟨hval, ?_, ?_, rfl, hval, rfl, ?_, ?_⟩
  · simp only [Planet.mk_init, hval]
    positivity
  · simp only [Planet.mk_init, hval]
    calc 2 * Real.pi * u < 2 * Real.pi * 1 := by
          exact mul_lt_mul_of_pos_left h1 hpi
      _ = 2 * Real.pi := mul_one _
  · intro t
    simp [Planet.reset_position, Planet.update_position, Planet.mk_init, hval]
  · intro u' hne
    simp only [Planet.mk_init, hval, random_uniform, zero_add, sub_zero]
    intro heq
    exact hne (mul_left_cancel₀ (ne_of_gt hpi) heq)

/-- C10 witness: the concrete catalog entry for Earth with the draw
`u = 1/2` satisfies the hypotheses, and the theorem evaluates there: the
starting angle is `π ∈ [0, 2π)` and is snapshotted into
`initial_angle`. -/
theorem random_start_angle_witness :
    (Planet.mk_init "Earth" 10 150 0.02 "#4169E1" 23.44 0 false
        (1/2)).angle = 2 * Real.pi * (1/2) ∧
    0 ≤ (Planet.mk_init "Earth" 10 150 0.02 "#4169E1" 23.44 0 false
        (1/2)).angle ∧
    (Planet.mk_init "Earth" 10 150 0.02 "#4169E1" 23.44 0 false
        (1/2)).angle < 2 * Real.pi ∧
    (Planet.mk_init "Earth" 10 150 0.02 "#4169E1" 23.44 0 false
        (1/2)).initial_angle =
      (Planet.mk_init "Earth" 10 150 0.02 "#4169E1" 23.44 0 false
        (1/2)).angle := by
  obtain ⟨h1, h2, h3, h4, -⟩ :=
    random_start_angle "Earth" 10 150 0.02 "#4169E1" 23.44 0 false (1/2)
      (by norm_num) (by norm_num)
  exact ⟨h1, h2, h3, h4⟩

/-- The sort key of `draw_solar_system`'s
`sorted(self.planets, key=lambda p: p.z if self.show_3d else 0)`. -/
def sort_key (show_3d : Bool) (p : Planet) : ℝ :=
  if show_3d then p.z else 0

/-- The draw order of `draw_solar_system`: Python's `sorted` with a key is
the stable sort by `key · ≤ key ·`, modelled by insertion sort (which
inserts every earlier element before the later elements of equal key, hence
is stable). -/
def planets_sorted (show_3d : Bool) (planets : List Planet) : List Planet :=
  planets.insertionSort fun p q => sort_key show_3d p ≤ sort_key show_3d q

instance (b : Bool) :
    IsTotal Planet fun p q => sort_key b p ≤ sort_key b q :=
  ⟨fun _ _ => le_total _ _⟩

instance (b : Bool) :
    IsTrans Planet fun p q => sort_key b p ≤ sort_key b q :=
  ⟨fun _ _ _ h1 h2 => le_trans h1 h2⟩

/-- Inserting `a` into `l` in key order leaves the sublist of any fixed key
value `c` unchanged except that `a`, when its key is `c`, lands in front:
the elements `a` jumps over all have keys strictly below `key a`. -/
theorem filter_key_orderedInsert {α : Type} (key : α → ℝ) (c : ℝ) (a : α) :
    ∀ l : List α,
      ((l.orderedInsert (fun p q => key p ≤ key q) a).filter
          fun p => decide (key p = c)) =
        if key a = c then
          a :: l.filter fun p => decide (key p = c)
        else l.filter fun p => decide (key p = c) := by
  intro l
  induction l with
  | nil =>
    simp only [List.orderedInsert, List.filter]
    by_cases h : key a = c <;> simp [h]
  | cons b l ih =>
    simp only [List.orderedInsert]
    by_cases hab : key a ≤ key b
    · rw [if_pos hab]
      by_cases ha : key a = c <;> simp [List.filter_cons, ha]
    · rw [if_neg hab]
      have hb : key b < key a := lt_of_not_le hab
      by_cases ha : key a = c
      · have hbc : ¬ key b = c := by
          intro h
          rw [ha, ← h] at hb
          exact lt_irrefl _ hb
        simp [List.filter_cons, ih, ha, hbc]
      · by_cases hbc : key b = c <;> simp [List.filter_cons, ih, ha, hbc]

/-- Stability of the modelled sort: for every key value `c`, the bodies of
key `c` appear in the sorted list exactly in their original order. -/
theorem filter_key_insertionSort {α : Type} (key : α → ℝ) (c : ℝ) :
    ∀ l : List α,
      ((l.insertionSort fun p q => key p ≤ key q).filter
          fun p => decide (key p = c)) =
        l.filter fun p => decide (key p = c) := by
  intro l
  induction l with
  | nil => rfl
  | cons a l ih =>
    simp only [List.insertionSort]
    rw [filter_key_orderedInsert key c a]
    by_cases ha : key a = c <;> simp [List.filter_cons, ha, ih]

/-- A relation that always holds is pairwise on every list. -/
theorem pairwise_of_forall_rel {α : Type} {r : α → α → Prop}
    (h : ∀ a b, r a b) : ∀ l : List α, l.Pairwise r := by
  intro l
  induction l with
  | nil => exact List.Pairwise.nil
  | cons a l ih => exact List.Pairwise.cons (fun b _ => h a b) ih

/-- C3: the draw order is the stable sort of the catalog list by the single
numeric key `p.z if show_3d else 0` — in 3D it is a permutation of the
catalog ordered by ascending raw z whose equal-z bodies keep catalog order,
and in 2D every body's key is 0, so the order is exactly the catalog
insertion order. -/
theorem draw_order_spec (planets : List Planet) :
    List.Perm (planets_sorted true planets) planets ∧
    (planets_sorted true planets).Pairwise (fun p q => p.z ≤ q.z) ∧
    (∀ c : ℝ,
      ((planets_sorted true planets).filter fun p => decide (p.z = c)) =
        planets.filter fun p => decide (p.z = c)) ∧
    planets_sorted false planets = planets := by
  refine ⟨List.perm_insertionSort _ planets, ?_, ?_, ?_⟩
  · exact List.sorted_insertionSort
      (fun p q => sort_key true p ≤ sort_key true q) planets
  · intro c
    exact filter_key_insertionSort (sort_key true) c planets
  · exact List.Sorted.insertionSort_eq
      (pairwise_of_forall_rel (fun p q => le_refl (0 : ℝ)) planets)

/-- The hit test of `get_planet_at_position`: the Euclidean distance from
the query point to the body's current projected screen position (the same
`px`/`py` formula as `draw_planet`, 3D y-offset included) is at most the
projected radius `planet.radius * zoom_factor`. -/
def hits (s : Explorer) (x y : ℝ) (p : Planet) : Prop :=
  Real.sqrt ((x - screen_x s p) ^ 2 + (y - screen_y s p) ^ 2) ≤
    screen_radius s p

/-- The loop of `get_planet_at_position`: walk the planet list in catalog
order and return the first planet the point hits. -/
def find_hit (s : Explorer) (x y : ℝ) : List Planet → Option Planet
  | [] => none
  | p :: rest => if hits s x y p then some p else find_hit s x y rest

/-- `get_planet_at_position(x, y)`: scan `self.planets`, returning the
first hit or `None`. -/
def get_planet_at_position (s : Explorer) (x y : ℝ) : Option Planet :=
  find_hit s x y s.planets

/-- The scan returns the head of the hit-filtered list. -/
theorem find_hit_eq_filter_head (s : Explorer) (x y : ℝ) :
    ∀ l : List Planet,
      find_hit s x y l = (l.filter fun p => decide (hits s x y p)).head? := by
  intro l
  induction l with
  | nil => rfl
  | cons p rest ih =>
    by_cases h : hits s x y p <;> simp [find_hit, List.filter_cons, h, ih]

/-- A returned planet is a hit and everything before it in catalog order
missed. -/
theorem find_hit_first (s : Explorer) (x y : ℝ) :
    ∀ (l : List Planet) (b : Planet), find_hit s x y l = some b →
      hits s x y b ∧ ∃ l₁ l₂, l = l₁ ++ b :: l₂ ∧
        ∀ p ∈ l₁, ¬ hits s x y p := by
  intro l
  induction l with
  | nil => intro b h; simp [find_hit] at h
  | cons p rest ih =>
    intro b h
    by_cases hp : hits s x y p
    · rw [find_hit, if_pos hp] at h
      cases h
      exact ⟨hp, [], rest, rfl, by simp⟩
    · rw [find_hit, if_neg hp] at h
      obtain ⟨hb, l₁, l₂, rfl, hnone⟩ := ih b h
      refine ⟨hb, p :: l₁, l₂, rfl, ?_⟩
      intro q hq
      rcases List.mem_cons.mp hq with h' | h'
      · exact h' ▸ hp
      · exact hnone q h'

/-- Conversely, the first hit in catalog order is what the scan returns. -/
theorem find_hit_of_split (s : Explorer) (x y : ℝ) (b : Planet) :
    ∀ (l₁ l₂ : List Planet), hits s x y b → (∀ p ∈ l₁, ¬ hits s x y p) →
      find_hit s x y (l₁ ++ b :: l₂) = some b := by
  intro l₁
  induction l₁ with
  | nil => intro l₂ hb _; simp [find_hit, hb]
  | cons p rest ih =>
    intro l₂ hb hnone
    have hp : ¬ hits s x y p := hnone p (List.mem_cons_self p rest)
    rw [List.cons_append, find_hit, if_neg hp]
    exact ih l₂ hb fun q hq => hnone q (List.mem_cons_of_mem p hq)

/-- C5: `get_planet_at_position` returns the head of the list of bodies the
point hits (distance from the current projected position, 3D offset
included, at most the screen radius), taken in catalog order: it yields
`none` exactly when no body is hit — in particular on an empty scene it
returns `none` rather than failing — and it yields `some b` exactly for the
first hit body in catalog order. -/
theorem pick_spec (s : Explorer) (x y : ℝ) :
    get_planet_at_position s x y =
      (s.planets.filter fun p => decide (hits s x y p)).head? ∧
    (get_planet_at_position s x y = none ↔
      ∀ p ∈ s.planets, ¬ hits s x y p) ∧
    (∀ b, get_planet_at_position s x y = some b →
      hits s x y b ∧ ∃ l₁ l₂, s.planets = l₁ ++ b :: l₂ ∧
        ∀ p ∈ l₁, ¬ hits s x y p) ∧
    (∀ b l₁ l₂, s.planets = l₁ ++ b :: l₂ → hits s x y b →
      (∀ p ∈ l₁, ¬ hits s x y p) →
      get_planet_at_position s x y = some b) ∧
    (s.planets = [] → get_planet_at_position s x y = none) := by
  refine ⟨find_hit_eq_filter_head s x y s.planets, ?_, ?_, ?_, ?_⟩
  · rw [get_planet_at_position, find_hit_eq_filter_head s x y s.planets]
    simp [List.head?_eq_none_iff, List.filter_eq_nil_iff]
  · exact fun b h => find_hit_first s x y s.planets b h
  · intro b l₁ l₂ hsplit hb hnone
    rw [get_planet_at_position, hsplit]
    exact find_hit_of_split s x y b l₁ l₂ hb hnone
  · intro h
    rw [get_planet_at_position, h]
    rfl

/-- An RGBA pixel of the source image, channels in `0..255`. -/
@[ext]
structure Pixel where
  r : ℕ
  g : ℕ
  b : ℕ
  a : ℕ

/-- The normalized offset of integer coordinate `x` from the image center:
`(x - size/2) / (size/2)` (float division, as in `create_texture_map`). -/
def norm_offset (size x : ℕ) : ℝ :=
  ((x : ℝ) - (size : ℝ) / 2) / ((size : ℝ) / 2)

/-- The normalized radial distance of pixel `(x, y)` from the image center:
`sqrt(dx*dx + dy*dy)`. -/
def radial_distance (width height x y : ℕ) : ℝ :=
  Real.sqrt (norm_offset width x * norm_offset width x +
    norm_offset height y * norm_offset height y)

/-- The per-pixel body of `create_texture_map`'s double loop: inside the
unit disc the RGB channels are scaled by
`intensity = max(0.3, min(1.0, 1.0 - distance * 0.7))` and truncated to
`int` (the alpha channel is kept); outside the disc the pixel becomes fully
transparent `(0, 0, 0, 0)`. -/
def create_texture_pixel (width height x y : ℕ) (p : Pixel) : Pixel :=
  let distance := radial_distance width height x y
  if distance ≤ 1.0 then
    let intensity := max 0.3 (min 1.0 (1.0 - distance * 0.7))
    { r := (⌊(p.r : ℝ) * intensity⌋).toNat
      g := (⌊(p.g : ℝ) * intensity⌋).toNat
      b := (⌊(p.b : ℝ) * intensity⌋).toNat
      a := p.a }
  else
    { r := 0, g := 0, b := 0, a := 0 }

/-- `create_texture_map` on an RGBA image: every pixel is rewritten in
place by the per-pixel shading rule. -/
def create_texture_map (width height : ℕ) (img : ℕ → ℕ → Pixel) :
    ℕ → ℕ → Pixel :=
  fun x y => create_texture_pixel width height x y (img x y)

/-- C4: the shaded texture rewrites each pixel at normalized offset
`(dx, dy)` with `d = sqrt(dx² + dy²)` to its RGB scaled by the intensity
`clamp(1.0 - 0.7·d, 0.3, 1.0)` with alpha preserved when `d ≤ 1.0`, and to
a fully transparent pixel when `d > 1.0`; the exact center pixel of an
image of even dimensions `2m × 2n` has `d = 0`, intensity `1.0`, and comes
out unattenuated. -/
theorem texture_shading_spec (width height x y m n : ℕ) (p : Pixel)
    (img : ℕ → ℕ → Pixel) (hm : 0 < m) (hn : 0 < n) :
    (radial_distance width height x y ≤ 1.0 →
      create_texture_pixel width height x y p =
        { r := (⌊(p.r : ℝ) * max 0.3 (min 1.0
            (1.0 - radial_distance width height x y * 0.7))⌋).toNat
          g := (⌊(p.g : ℝ) * max 0.3 (min 1.0
            (1.0 - radial_distance width height x y * 0.7))⌋).toNat
          b := (⌊(p.b : ℝ) * max 0.3 (min 1.0
            (1.0 - radial_distance width height x y * 0.7))⌋).toNat
          a := p.a }) ∧
    (1.0 < radial_distance width height x y →
      create_texture_pixel width height x y p =
        { r := 0, g := 0, b := 0, a := 0 }) ∧
    create_texture_map width height img x y =
      create_texture_pixel width height x y (img x y) ∧
    create_texture_pixel (2 * m) (2 * n) m n p = p := by
  refine ⟨?_, ?_, rfl, ?_⟩
  · intro h
    rw [create_texture_pixel, if_pos h]
  · intro h
    rw [create_texture_pixel, if_neg (not_le.mpr h)]
  · have hoff : ∀ k : ℕ, norm_offset (2 * k) k = 0 := by
      intro k
      rw [norm_offset]
      push_cast
      ring_nf
    have hdist : radial_distance (2 * m) (2 * n) m n = 0 := by
      rw [radial_distance, hoff m, hoff n]
      norm_num
    have hint : max 0.3 (min 1.0 (1.0 - (0 : ℝ) * 0.7)) = 1 := by norm_num
    rw [create_texture_pixel, hdist, if_pos (by norm_num : (0 : ℝ) ≤ 1.0),
      hint]
    ext <;> simp

/-- C4 witness: on a concrete 2×2 image, the exact center pixel
`(1, 1)` of the opaque pixel `(100, 50, 25, 255)` is returned
unattenuated. -/
theorem texture_shading_spec_witness :
    create_texture_pixel 2 2 1 1 ⟨100, 50, 25, 255⟩ =
      ⟨100, 50, 25, 255⟩ :=
  (texture_shading_spec 2 2 1 1 1 1 ⟨100, 50, 25, 255⟩
    (fun _ _ => ⟨100, 50, 25, 255⟩) (by norm_num) (by norm_num)).2.2.2

end SolarApp
